import Mathlib

/-!
Verification development for the probe-tester amplicon analysis core.

Python strings are modelled as `List Char`; `str.upper`/`str.lower` on one
character are `Char.toUpper`/`Char.toLower` (the sources only ever hold ASCII).
The embedded functions keep the source's names: `reverse_complement`,
`_base_match` and `count_mismatches` come from `modules/sequence_utils.py`;
`match_probe`, `_parse_fasta_from_text`, `run_ipcr`, `process_genome_job` and
the orchestration in `analyze_genome_products` come from
`modules/probe_analysis.py`.
-/

/-- The complement table of `reverse_complement` (modules/sequence_utils.py):
a Python dict from base to complement; `complement.get(base, base)` falls back
to the character itself, which the final match arm mirrors. -/
def complement (c : Char) : Char :=
  match c with
  | 'A' => 'T' | 'T' => 'A' | 'C' => 'G' | 'G' => 'C'
  | 'R' => 'Y' | 'Y' => 'R' | 'S' => 'S' | 'W' => 'W'
  | 'K' => 'M' | 'M' => 'K' | 'B' => 'V' | 'D' => 'H'
  | 'H' => 'D' | 'V' => 'B' | 'N' => 'N'
  | 'a' => 't' | 't' => 'a' | 'c' => 'g' | 'g' => 'c'
  | 'r' => 'y' | 'y' => 'r' | 's' => 's' | 'w' => 'w'
  | 'k' => 'm' | 'm' => 'k' | 'b' => 'v' | 'd' => 'h'
  | 'h' => 'd' | 'v' => 'b' | 'n' => 'n'
  | other => other

/-- `reverse_complement(seq)`: `''.join(complement.get(base, base) for base in
reversed(seq))`. -/
def reverse_complement (seq : List Char) : List Char :=
  seq.reverse.map complement

/-- The `_IUPAC` bit-mask table (A=1, C=2, G=4, T=8); `_base_match` reads it
with `.get(p, 0)`, so a character off the table has mask 0. -/
def iupacMask (c : Char) : Nat :=
  match c with
  | 'A' => 1 | 'C' => 2 | 'G' => 4 | 'T' => 8
  | 'R' => 5 | 'Y' => 10 | 'S' => 6 | 'W' => 9
  | 'K' => 12 | 'M' => 3 | 'B' => 14 | 'D' => 13
  | 'H' => 11 | 'V' => 7 | 'N' => 15
  | _ => 0

/-- `_base_match(genome_base, primer_base)`: uppercase both; a genomic
character outside A/C/G/T never matches; otherwise test the bitwise AND of the
two IUPAC masks. -/
def _base_match (genome_base primer_base : Char) : Bool :=
  let g := genome_base.toUpper
  let p := primer_base.toUpper
  if g ∈ (['A', 'C', 'G', 'T'] : List Char) then
    (iupacMask p).land (iupacMask g) != 0
  else
    false

/-- `count_mismatches(primer, window)`: zip the two sequences (Python `zip`
truncates to the shorter), count positions where `_base_match(g, p)` fails,
then add `abs(len(primer) - len(window))`.  The source's `.upper()` on both
strings before the zip is absorbed here: `_base_match` uppercases each
character itself and `upper` is idempotent, so the per-position test is
unchanged and the zip length is unaffected. -/
def count_mismatches (primer window : List Char) : Nat :=
  (primer.zip window).countP (fun pg => ! _base_match pg.2 pg.1)
  + ((primer.length - window.length) + (window.length - primer.length))

/-- `match_probe`'s scan loop (`for i in range(len(sequence) - len(probe) + 1)`),
with the iteration count made explicit as structural fuel.  On a strict
improvement the minimum and best position are updated, and a zero-mismatch
window stops the scan (the source's `break`). -/
def match_probe_go (probe sequence : List Char) :
    Nat → Nat → Nat → Int → Nat × Int
  | _, 0, min_mismatches, best_pos => (min_mismatches, best_pos)
  | i, fuel + 1, min_mismatches, best_pos =>
    let window := (sequence.drop i).take probe.length
    let mismatches := count_mismatches probe window
    if mismatches < min_mismatches then
      if mismatches = 0 then (mismatches, (i : Int))
      else match_probe_go probe sequence (i + 1) fuel mismatches (i : Int)
    else match_probe_go probe sequence (i + 1) fuel min_mismatches best_pos

/-- `match_probe(probe, sequence)`: `(-1, -1)` when the probe or the sequence
is empty or the sequence is shorter than the probe; otherwise scan every
window, starting from `min_mismatches = len(probe)` and `best_pos = -1`. -/
def match_probe (probe sequence : List Char) : Int × Int :=
  if probe.length = 0 ∨ sequence.length = 0 ∨ sequence.length < probe.length then
    (-1, -1)
  else
    let r := match_probe_go probe sequence 0
      (sequence.length - probe.length + 1) probe.length (-1)
    ((r.1 : Int), r.2)

/-- Python `str.strip()` on a line: drop whitespace from both ends (the CLI
outputs analyzed here only ever hold ASCII blanks, where `Char.isWhitespace`
and Python's whitespace set agree). -/
def strip (s : List Char) : List Char :=
  ((s.dropWhile Char.isWhitespace).reverse.dropWhile Char.isWhitespace).reverse

/-- Python `str.lower()` on a line. -/
def str_lower (s : List Char) : List Char :=
  s.map Char.toLower

/-- Python `tok in lower` (substring containment): the needle is a prefix of
some suffix of the haystack; `"x" in ""` only when the needle is empty. -/
def contains_sub (needle : List Char) : List Char → Bool
  | [] => needle.isEmpty
  | c :: rest => needle.isPrefixOf (c :: rest) || contains_sub needle rest

/-- One pass of Python `text.splitlines()` splitting on a line feed, the only
terminator present in the engine outputs analyzed here; `cur` is the current
line reversed. -/
def splitlines_go (cur : List Char) : List Char → List (List Char)
  | [] => [cur.reverse]
  | c :: rest =>
    if c = '\n' then cur.reverse :: splitlines_go [] rest
    else splitlines_go (c :: cur) rest

/-- Python `text.splitlines()`: `""` has no lines, and a trailing terminator
does not open an extra empty line. -/
def splitlines (text : List Char) : List (List Char) :=
  match text with
  | [] => []
  | _ :: _ =>
    let ls := splitlines_go [] text
    if text.getLast? = some '\n' then ls.dropLast else ls

/-- `"".join(buf).upper()` of `_parse_fasta_from_text`: `buf` is accumulated in
reverse, so flushing joins its reverse and upper-cases; an empty buffer
contributes nothing (`if buf:`). -/
def flush_record (buf : List (List Char)) (seqs : List (List Char)) :
    List (List Char) :=
  if buf.isEmpty then seqs else seqs ++ [buf.reverse.flatten.map Char.toUpper]

/-- The two nested `while` loops of `_parse_fasta_from_text`, as a line-at-a-time
state machine.  `state = none` is the outer loop skipping toward a `>` header;
`state = some buf` is the inner loop collecting the stripped, non-empty body
lines of the open record (in reverse).  The inner loop's `break` on a new `>`
header flushes and opens the next record; its `break` on a `--` separator
flushes and returns to the outer skipping loop (the separator line itself
starts with neither `>` nor a record body the outer loop would keep, exactly as
in the source, where the outer loop re-reads and discards it). -/
def parse_fasta_go : List (List Char) → Option (List (List Char)) →
    List (List Char) → List (List Char)
  | [], none, seqs => seqs
  | [], some buf, seqs => flush_record buf seqs
  | ln :: rest, none, seqs =>
    let s := strip ln
    if ['>'].isPrefixOf s then parse_fasta_go rest (some []) seqs
    else parse_fasta_go rest none seqs
  | ln :: rest, some buf, seqs =>
    let s := strip ln
    if ['>'].isPrefixOf s then parse_fasta_go rest (some []) (flush_record buf seqs)
    else if ['-', '-'].isPrefixOf s then parse_fasta_go rest none (flush_record buf seqs)
    else if s.isEmpty then parse_fasta_go rest (some buf) seqs
    else parse_fasta_go rest (some (s :: buf)) seqs

/-- `_parse_fasta_from_text(text, drop_prefix_tokens)`: split into lines,
optionally discard chatter lines containing any of the (lowercase) tokens
(`if drop_prefix_tokens:` is Python truthiness, so `None` and `[]` both skip
the filter), then scan records. -/
def _parse_fasta_from_text (text : List Char)
    (drop_tokens : Option (List (List Char))) : List (List Char) :=
  let lines := splitlines text
  let lines := match drop_tokens with
    | none => lines
    | some toks =>
      if toks.isEmpty then lines
      else lines.filter (fun ln => ! toks.any (fun tok => contains_sub tok (str_lower ln)))
  parse_fasta_go lines none []

/-- The failure classes `run_ipcr` (modules/probe_analysis.py) raises:
Python `ValueError` for a usage/config error, Python `RuntimeError` for a
runtime/IO error, each carrying its message. -/
inductive PyError where
  | valueError (msg : List Char)
  | runtimeError (msg : List Char)
deriving DecidableEq

/-- Python `str(n)` for a natural number, with explicit fuel (the number
itself suffices: `n / 10 < n` for `n ≥ 10`). -/
def nat_digits : Nat → Nat → List Char
  | 0, _ => []
  | fuel + 1, n =>
    if n < 10 then [Char.ofNat (48 + n)]
    else nat_digits fuel (n / 10) ++ [Char.ofNat (48 + n % 10)]

/-- Python `str(rc)` for the exit code interpolated into `run_ipcr`'s
messages. -/
def int_str (i : Int) : List Char :=
  if i < 0 then '-' :: nat_digits (i.natAbs + 1) i.natAbs
  else nat_digits (i.natAbs + 1) i.natAbs

/-- `stderr.strip() or 'no stderr'` of `run_ipcr`: Python `or` takes the
right operand when the stripped text is empty (falsy). -/
def stderr_text (stderr : List Char) : List Char :=
  if strip stderr = [] then "no stderr".toList else strip stderr

/-- `run_ipcr(...)` with `dry_run=False`, modelled over the external process's
observable result `(returncode, stdout, stderr)`.  In the source,
`io_tools.run_command` (with its default `check=True`) returns the
`CompletedProcess` when the exit code is 0 and otherwise raises
`CalledProcessError`; `run_ipcr` catches that exception and recovers the same
`(returncode, stdout, stderr)` triple, so the exit-code dispatch below sees the
triple in every case.  Exit code 0 parses stdout as FASTA; 1 returns the empty
product list; 2 raises `ValueError`; anything else raises `RuntimeError`. -/
def run_ipcr (returncode : Int) (stdout stderr genome_path : List Char) :
    Except PyError (List (List Char)) :=
  if returncode = 0 then .ok (_parse_fasta_from_text stdout none)
  else if returncode = 1 then .ok []
  else if returncode = 2 then
    .error (.valueError ("ipcr usage/config error on ".toList ++ genome_path
      ++ ": ".toList ++ stderr_text stderr))
  else
    .error (.runtimeError ("ipcr failed on ".toList ++ genome_path
      ++ " (exit ".toList ++ int_str returncode ++ "): ".toList
      ++ stderr_text stderr))

/-- One entry of `process_genome_job`'s `product_results` list: the amplicon
and its scores.  `probe_mismatches`/`probe_position` are `None` in Python when
no probe is supplied, which `Option` models. -/
structure ProductResult where
  product : List Char
  forward_mismatches : Nat
  reverse_mismatches : Nat
  probe_mismatches : Option Int
  probe_position : Option Int
deriving DecidableEq

/-- Python `prod[-k:]`: the last `k` characters, except that `prod[-0:]` is
the whole string (negative-index slicing has no "last zero" form). -/
def tail_slice (prod : List Char) (k : Nat) : List Char :=
  if k = 0 then prod else prod.drop (prod.length - k)

/-- The per-product scoring step of `process_genome_job`: forward mismatches
against `prod[:len(forward_primer)]`, reverse mismatches of the
reverse-complemented reverse primer against `prod[-len(reverse_primer):]`, and
probe fields from `match_probe` only under `if probe:` (Python truthiness, so
`None` and the empty probe both leave the fields `None`). -/
def score_product (forward_primer reverse_primer : List Char)
    (probe : Option (List Char)) (prod : List Char) : ProductResult :=
  let f_mismatches := count_mismatches forward_primer (prod.take forward_primer.length)
  let r_mismatches := count_mismatches (reverse_complement reverse_primer)
    (tail_slice prod reverse_primer.length)
  let probe_fields : Option Int × Option Int :=
    match probe with
    | some p =>
      if p.isEmpty then (none, none)
      else ((match_probe p prod).1, (match_probe p prod).2)
    | none => (none, none)
  { product := prod
    forward_mismatches := f_mismatches
    reverse_mismatches := r_mismatches
    probe_mismatches := probe_fields.1
    probe_position := probe_fields.2 }

/-- One `AmplificationJob` as the report routing sees it: the species label
(directory name) and the genome identifier (`genome_path.stem`). -/
structure AmpJob where
  species : String
  genome_id : String
deriving DecidableEq

/-- `process_genome_job` after the engine call: an engine failure (a raised
`ValueError`/`RuntimeError`, modelled as `Except.error`) propagates — the
worker has no handler — and an engine success maps each product through the
scoring step and returns the `(species_name, genome_id, product_results)`
triple. -/
def process_genome_job (engine_result : Except PyError (List (List Char)))
    (forward_primer reverse_primer : List Char) (probe : Option (List Char))
    (job : AmpJob) : Except PyError (String × String × List ProductResult) :=
  match engine_result with
  | .error e => .error e
  | .ok products =>
    .ok (job.species, job.genome_id,
      products.map (score_product forward_primer reverse_primer probe))

/-- The serial execution path of `analyze_genome_products` (`threads <= 1`):
`for j in jobs: ... process_genome_job(j)` with no `try`/`except`, so the
first job whose engine call raises aborts the loop and the exception
propagates out of `analyze_genome_products`; otherwise every job's triple is
recorded.  The engine behaviour per job is the oracle `engine`. -/
def analyze_serial (engine : AmpJob → Except PyError (List (List Char)))
    (forward_primer reverse_primer : List Char) (probe : Option (List Char)) :
    List AmpJob → Except PyError (List (String × String × List ProductResult))
  | [] => .ok []
  | j :: rest =>
    match process_genome_job (engine j) forward_primer reverse_primer probe j with
    | .error e => .error e
    | .ok entry =>
      match analyze_serial engine forward_primer reverse_primer probe rest with
      | .error e => .error e
      | .ok tail => .ok (entry :: tail)

/-- `_FASTA_GLOBS = ("*.fna", "*.fa", "*.fasta", "*.fna.gz", "*.fa.gz",
"*.fasta.gz")`, each pattern represented by its extension. -/
def _FASTA_GLOBS : List (List Char) :=
  ["fna".toList, "fa".toList, "fasta".toList,
   "fna.gz".toList, "fa.gz".toList, "fasta.gz".toList]

/-- Whether `species_dir.glob("*." + ext)` lists `fname`: `pathlib.Path.glob`'s
`*` matches any run of characters of a file name, a leading dot and the empty
run included (unlike the `glob` module, `Path.glob("*.fa")` lists `.fa` and
`.hidden.fa`), so the pattern holds exactly when the name ends in
`"." + ext`. -/
def matches_glob (ext : List Char) (fname : List Char) : Bool :=
  ('.' :: ext).isSuffixOf fname

/-- One species directory of the genomes root: its name and the file names it
holds. -/
structure SpeciesDir where
  name : String
  files : List (List Char)
deriving DecidableEq

/-- Lexicographic comparison by code point, Python's string (and hence
single-component `Path`) ordering. -/
def lc_le : List Char → List Char → Bool
  | [], _ => true
  | _ :: _, [] => false
  | a :: as, b :: bs => if a = b then lc_le as bs else decide (a < b)

/-- Insertion step of `sorted(...)`. -/
def ins_sorted (x : List Char) : List (List Char) → List (List Char)
  | [] => [x]
  | y :: ys => if lc_le x y then x :: y :: ys else y :: ins_sorted x ys

/-- `sorted(...)` over path names. -/
def sort_paths : List (List Char) → List (List Char)
  | [] => []
  | x :: xs => ins_sorted x (sort_paths xs)

/-- `sorted(set(genome_paths))` of `analyze_genome_products`: de-duplicate the
glob hits (a path can in principle be listed by more than one pattern), then
sort for determinism. -/
def dedup_sort (l : List (List Char)) : List (List Char) :=
  sort_paths l.eraseDups

/-- The genome files of one species directory, as `analyze_genome_products`
enumerates them: every `_FASTA_GLOBS` pattern's hits, de-duplicated and
sorted. -/
def genome_files (d : SpeciesDir) : List (List Char) :=
  dedup_sort (_FASTA_GLOBS.flatMap (fun ext => d.files.filter (matches_glob ext)))

/-- The index of the last `'.'` of a file name, if any. -/
def last_dot_pos : List Char → Option Nat
  | [] => none
  | c :: rest =>
    match last_dot_pos rest with
    | some k => some (k + 1)
    | none => if c = '.' then some 0 else none

/-- `PurePath.stem`: the file name without its last suffix, where a suffix is
a final `'.'`-part whose dot is neither the first nor the last character
(`".bashrc"` and `"a."` keep themselves). -/
def stem (fname : List Char) : List Char :=
  match last_dot_pos fname with
  | none => fname
  | some k => if 0 < k ∧ k + 1 < fname.length then fname.take k else fname

/-- The `(species, genome id)` report slots the orchestrator's jobs write to:
one per enumerated genome file, with the species directory's name and the
file's stem (`genome_id = genome_path.stem` in `process_genome_job`). -/
def job_slots (dirs : List SpeciesDir) : List (String × List Char) :=
  dirs.flatMap (fun d => (genome_files d).map (fun f => (d.name, stem f)))

/-- An engine adapter stub that raises `RuntimeError` on exactly the job for
genome `"g2"` and succeeds with one product on every other job. -/
def stub_engine (j : AmpJob) : Except PyError (List (List Char)) :=
  if j.genome_id = "g2" then .error (.runtimeError "engine crashed".toList)
  else .ok ["ACGT".toList]

/-- Four jobs over two species, as enumerated from a genomes directory with
two species of two genomes each. -/
def four_jobs : List AmpJob :=
  [⟨"s1", "g1"⟩, ⟨"s1", "g2"⟩, ⟨"s2", "g3"⟩, ⟨"s2", "g4"⟩]

/-- A species directory holding the same accession under two FASTA-like
extensions. -/
def clashing_dirs : List SpeciesDir :=
  [⟨"s", ["x.fa".toList, "x.fna".toList]⟩]

/-- Two species directories with stem-distinct genome files. -/
def distinct_dirs : List SpeciesDir :=
  [⟨"s1", ["a.fna".toList, "b.fa".toList]⟩, ⟨"s2", ["a.fna".toList]⟩]

/-- Spec-side definition for the Hamming-distance comparison (§8 of the spec):
the number of positions where the two equal-length strings differ, compared
case-insensitively as the spec's testable property asks. -/
def hamming_distance (s t : List Char) : Nat :=
  (s.zip t).countP (fun pg => pg.1.toUpper != pg.2.toUpper)

/-- The complement table is an involution: each listed pair is symmetric and
unlisted characters are fixed. -/
theorem complement_complement (c : Char) : complement (complement c) = c := by
  by_cases h : c ∈ (['A', 'T', 'C', 'G', 'R', 'Y', 'S', 'W', 'K', 'M', 'B', 'D', 'H', 'V', 'N',
    'a', 't', 'c', 'g', 'r', 'y', 's', 'w', 'k', 'm', 'b', 'd', 'h', 'v', 'n'] : List Char)
  · fin_cases h <;> rfl
  · have h1 : complement c = c := by
      unfold complement
      split <;> first | rfl | exact absurd (by decide) h
    rw [h1, h1]

/-- A genomic character whose uppercase form is outside A/C/G/T never matches
any primer character. -/
theorem base_match_of_nonACGT (g p : Char)
    (h : g.toUpper ∉ (['A', 'C', 'G', 'T'] : List Char)) :
    _base_match g p = false := by
  simp [_base_match, h]

/-- On case-insensitive A/C/G/T characters, `_base_match` is exactly
case-insensitive character equality. -/
theorem base_match_acgt (p g : Char)
    (hp : p ∈ (['A', 'C', 'G', 'T', 'a', 'c', 'g', 't'] : List Char))
    (hg : g ∈ (['A', 'C', 'G', 'T', 'a', 'c', 'g', 't'] : List Char)) :
    (! _base_match g p) = (p.toUpper != g.toUpper) := by
  fin_cases hp <;> fin_cases hg <;> decide

/-- A case-insensitive A/C/G/T character matches itself. -/
theorem base_match_self (c : Char)
    (h : c ∈ (['A', 'C', 'G', 'T', 'a', 'c', 'g', 't'] : List Char)) :
    _base_match c c = true := by
  fin_cases h <;> decide

/-- A case-insensitive A/C/G/T probe scores zero mismatches against itself. -/
theorem count_mismatches_self (probe : List Char)
    (h : ∀ c ∈ probe, c ∈ (['A', 'C', 'G', 'T', 'a', 'c', 'g', 't'] : List Char)) :
    count_mismatches probe probe = 0 := by
  unfold count_mismatches
  rw [Nat.sub_self]
  simp only [Nat.add_zero]
  rw [List.countP_eq_zero]
  intro pg hmem
  obtain ⟨i, hi, heq⟩ := List.mem_iff_getElem.mp hmem
  rw [List.getElem_zip] at heq
  subst heq
  simp [base_match_self _ (h _ (List.getElem_mem _))]

/-- If no window scores strictly below the running minimum, the scan loop
returns the minimum and best position it started with. -/
theorem match_probe_go_no_improve (probe sequence : List Char) :
    ∀ (fuel i : Nat) (best : Int),
      (∀ k, i ≤ k → k < i + fuel →
        ¬ count_mismatches probe ((sequence.drop k).take probe.length) < probe.length) →
      match_probe_go probe sequence i fuel probe.length best = (probe.length, best)
  | 0, _, _, _ => rfl
  | fuel + 1, i, best, h => by
    unfold match_probe_go
    rw [if_neg (h i le_rfl (by omega))]
    exact match_probe_go_no_improve probe sequence fuel (i + 1) best
      (fun k hk1 hk2 => h k (by omega) (by omega))

/-- If some window in range scores zero mismatches and the running minimum is
still positive, the scan loop stops at the first zero-mismatch window at or
before it. -/
theorem match_probe_go_zero (probe sequence : List Char) :
    ∀ (fuel i min_mismatches : Nat) (best : Int) (k : Nat),
      1 ≤ min_mismatches → i ≤ k → k < i + fuel →
      count_mismatches probe ((sequence.drop k).take probe.length) = 0 →
      ∃ j, i ≤ j ∧ j ≤ k ∧
        count_mismatches probe ((sequence.drop j).take probe.length) = 0 ∧
        match_probe_go probe sequence i fuel min_mismatches best = (0, (j : Int))
  | 0, i, _, _, k, _, hik, hlt, _ => absurd hlt (by omega)
  | fuel + 1, i, m, best, k, hm, hik, hlt, hz => by
    unfold match_probe_go
    by_cases h0 : count_mismatches probe ((sequence.drop i).take probe.length) = 0
    · refine ⟨i, le_rfl, hik, h0, ?_⟩
      rw [if_pos (by omega), if_pos h0, h0]
    · have hik' : i + 1 ≤ k := by
        rcases Nat.eq_or_lt_of_le hik with rfl | h
        · exact absurd hz h0
        · omega
      by_cases himp : count_mismatches probe ((sequence.drop i).take probe.length) < m
      · rw [if_pos himp, if_neg h0]
        obtain ⟨j, hj1, hj2, hj3, hj4⟩ := match_probe_go_zero probe sequence fuel (i + 1)
          (count_mismatches probe ((sequence.drop i).take probe.length)) (i : Int) k
          (by omega) hik' (by omega) hz
        exact ⟨j, by omega, hj2, hj3, hj4⟩
      · rw [if_neg himp]
        obtain ⟨j, hj1, hj2, hj3, hj4⟩ := match_probe_go_zero probe sequence fuel (i + 1)
          m best k hm hik' (by omega) hz
        exact ⟨j, by omega, hj2, hj3, hj4⟩

/-- C2: with `dryRun` false, `run_ipcr` maps exit code 0 to the sequence list
parsed from standard output, exit code 1 to an empty list without raising,
exit code 2 to a configuration-class failure (`ValueError`) carrying the
captured standard-error text, and any exit code 3 or greater to a
runtime-class failure (`RuntimeError`) carrying the captured standard-error
text. -/
theorem run_ipcr_exit_code_contract (rc : Int) (stdout stderr genome_path : List Char)
    (h3 : 3 ≤ rc) :
    run_ipcr 0 stdout stderr genome_path = .ok (_parse_fasta_from_text stdout none) ∧
    run_ipcr 1 stdout stderr genome_path = .ok [] ∧
    run_ipcr 2 stdout stderr genome_path =
      .error (.valueError ("ipcr usage/config error on ".toList ++ genome_path
        ++ ": ".toList ++ stderr_text stderr)) ∧
    run_ipcr rc stdout stderr genome_path =
      .error (.runtimeError ("ipcr failed on ".toList ++ genome_path
        ++ " (exit ".toList ++ int_str rc ++ "): ".toList ++ stderr_text stderr)) ∧
    (strip stderr ≠ [] → stderr_text stderr = strip stderr) := by
  refine ⟨rfl, rfl, rfl, ?_, ?_⟩
  · unfold run_ipcr
    rw [if_neg (by omega), if_neg (by omega), if_neg (by omega)]
  · intro h
    unfold stderr_text
    rw [if_neg h]

/-- C2 witness: the contract applied at exit code 3 with concrete output and
standard-error text. -/
theorem run_ipcr_exit_code_contract_witness :
    (3 : Int) ≤ 3 ∧
    run_ipcr 3 ">p\nAC\n".toList " boom ".toList "g".toList
      = .error (.runtimeError "ipcr failed on g (exit 3): boom".toList) := by
  refine ⟨by norm_num, ?_⟩
  have h := (run_ipcr_exit_code_contract 3 ">p\nAC\n".toList " boom ".toList
    "g".toList (by norm_num)).2.2.2.1
  rw [h]
  rfl

/-- C3: a window position whose character is not A/C/G/T case-insensitively
(including N) is counted as a mismatch by `count_mismatches` regardless of the
primer's base or ambiguity code there: the positional test `_base_match` is
false, and the total mismatch count is at least one. -/
theorem count_mismatches_nonACGT_mismatch (primer window : List Char) (i : Nat)
    (hp : i < primer.length) (hw : i < window.length)
    (hN : (window.get ⟨i, hw⟩).toUpper ∉ (['A', 'C', 'G', 'T'] : List Char)) :
    _base_match (window.get ⟨i, hw⟩) (primer.get ⟨i, hp⟩) = false ∧
    1 ≤ count_mismatches primer window := by
  have hbm : _base_match (window.get ⟨i, hw⟩) (primer.get ⟨i, hp⟩) = false :=
    base_match_of_nonACGT _ _ hN
  refine ⟨hbm, ?_⟩
  have hz : i < (primer.zip window).length := by
    rw [List.length_zip]; omega
  have hmem : (primer.get ⟨i, hp⟩, window.get ⟨i, hw⟩) ∈ primer.zip window := by
    have hget := @List.getElem_zip Char Char primer window i hz
    rw [List.get_eq_getElem, List.get_eq_getElem, ← hget]
    exact List.getElem_mem hz
  have hpos : 0 < (primer.zip window).countP (fun pg => ! _base_match pg.2 pg.1) :=
    List.countP_pos_iff.mpr ⟨_, hmem, by
      simp only [List.get_eq_getElem] at hbm
      simp [hbm]⟩
  unfold count_mismatches
  omega

/-- C3 witness: primer N against genomic N is a mismatch. -/
theorem count_mismatches_nonACGT_mismatch_witness :
    (('N' : Char).toUpper ∉ (['A', 'C', 'G', 'T'] : List Char)) ∧
    _base_match 'N' 'N' = false ∧ 1 ≤ count_mismatches ['N'] ['N'] := by
  have h := count_mismatches_nonACGT_mismatch ['N'] ['N'] 0
    (by decide) (by decide) (by decide)
  exact ⟨by decide, h.1, h.2⟩

/-- C7: on equal-length strings drawn case-insensitively from A/C/G/T,
`count_mismatches` is exactly the (case-insensitive) Hamming distance. -/
theorem count_mismatches_eq_hamming (primer window : List Char)
    (hlen : primer.length = window.length)
    (hp : ∀ c ∈ primer, c ∈ (['A', 'C', 'G', 'T', 'a', 'c', 'g', 't'] : List Char))
    (hw : ∀ c ∈ window, c ∈ (['A', 'C', 'G', 'T', 'a', 'c', 'g', 't'] : List Char)) :
    count_mismatches primer window = hamming_distance primer window := by
  have hcong : (primer.zip window).countP (fun pg => ! _base_match pg.2 pg.1)
      = (primer.zip window).countP (fun pg => pg.1.toUpper != pg.2.toUpper) := by
    apply List.countP_congr
    intro pg hmem
    obtain ⟨a, b⟩ := pg
    obtain ⟨h1, h2⟩ := List.of_mem_zip hmem
    rw [base_match_acgt a b (hp a h1) (hw b h2)]
  unfold count_mismatches hamming_distance
  rw [hcong, hlen, Nat.sub_self]
  omega

/-- C7 witness: one substitution between mixed-case A/C/G/T strings. -/
theorem count_mismatches_eq_hamming_witness :
    "ACgT".toList.length = "AGGT".toList.length ∧
    count_mismatches "ACgT".toList "AGGT".toList
      = hamming_distance "ACgT".toList "AGGT".toList :=
  ⟨by decide, count_mismatches_eq_hamming "ACgT".toList "AGGT".toList
    (by decide) (by decide) (by decide)⟩

/-- C8: amplicon extraction on the exact input `">x\nACGT\nACGT\n>y\nTTTT\n"`
with no chatter filters returns `["ACGTACGT", "TTTT"]`: wrapped sequence lines
of one record are concatenated after trimming and upper-cased. -/
theorem parse_fasta_wrapped_records :
    _parse_fasta_from_text ">x\nACGT\nACGT\n>y\nTTTT\n".toList none
      = ["ACGTACGT".toList, "TTTT".toList] := by
  rfl

/-- C9: applying `reverse_complement` twice round-trips base identity
case-insensitively, for every string, including characters outside the IUPAC
alphabet (which pass through unchanged). -/
theorem reverse_complement_involutive_ci (seq : List Char) :
    (reverse_complement (reverse_complement seq)).map Char.toUpper
      = seq.map Char.toUpper := by
  have hmap : ∀ l : List Char, l.map (fun c => complement (complement c)) = l := by
    intro l
    induction l with
    | nil => rfl
    | cons c cs ih => simp [complement_complement, ih]
  have h2 : reverse_complement (reverse_complement seq) = seq := by
    unfold reverse_complement
    rw [List.map_reverse, List.map_map]
    rw [show seq.reverse.map (complement ∘ complement) = seq.reverse from hmap seq.reverse]
    exact List.reverse_reverse seq
  rw [h2]

/-- C6 counterexample: the probe `"N"` occurs verbatim at offset 0 in the
sequence `"N"`, yet `match_probe` reports one mismatch and the sentinel
position, not a zero-mismatch match at any offset — the genomic-N rule makes
a verbatim N-bearing occurrence score nonzero. -/
theorem match_probe_verbatim_cex :
    (("N".toList.drop 0).take "N".toList.length = "N".toList) ∧
    match_probe "N".toList "N".toList = (1, -1) ∧
    (match_probe "N".toList "N".toList).1 ≠ 0 := by
  decide

/-- C6 (amended): for every non-empty probe drawn case-insensitively from
A/C/G/T and every sequence containing the probe verbatim at offset k,
`match_probe` returns mismatch count 0 at some offset j ≤ k whose window also
scores zero mismatches. -/
theorem match_probe_verbatim_acgt (probe sequence : List Char) (k : Nat)
    (hne : probe ≠ [])
    (hACGT : ∀ c ∈ probe, c ∈ (['A', 'C', 'G', 'T', 'a', 'c', 'g', 't'] : List Char))
    (hocc : (sequence.drop k).take probe.length = probe) :
    ∃ j, j ≤ k ∧
      count_mismatches probe ((sequence.drop j).take probe.length) = 0 ∧
      match_probe probe sequence = (0, (j : Int)) := by
  have hp0 : probe.length ≠ 0 := by simpa using hne
  have hlen : k + probe.length ≤ sequence.length := by
    have := congrArg List.length hocc
    simp [List.length_take, List.length_drop] at this
    omega
  have hzero : count_mismatches probe ((sequence.drop k).take probe.length) = 0 := by
    rw [hocc]
    exact count_mismatches_self probe hACGT
  obtain ⟨j, hj0, hjk, hjz, hjeq⟩ := match_probe_go_zero probe sequence
    (sequence.length - probe.length + 1) 0 probe.length (-1) k
    (by omega) (Nat.zero_le k) (by omega) hzero
  refine ⟨j, hjk, hjz, ?_⟩
  unfold match_probe
  rw [if_neg (by push_neg; exact ⟨hp0, by omega, by omega⟩)]
  rw [hjeq]
  simp

/-- C6 witness: probe `"ACGT"` occurs verbatim at offset 2 of `"TTACGT"` and
`match_probe` finds the zero-mismatch window there. -/
theorem match_probe_verbatim_acgt_witness :
    ("ACGT".toList ≠ ([] : List Char)) ∧
    (∀ c ∈ "ACGT".toList, c ∈ (['A', 'C', 'G', 'T', 'a', 'c', 'g', 't'] : List Char)) ∧
    (∃ j, j ≤ 2 ∧
      count_mismatches "ACGT".toList
        (("TTACGT".toList.drop j).take "ACGT".toList.length) = 0 ∧
      match_probe "ACGT".toList "TTACGT".toList = (0, (j : Int))) :=
  ⟨by decide, by decide,
   match_probe_verbatim_acgt "ACGT".toList "TTACGT".toList 2
     (by decide) (by decide) (by decide)⟩

/-- C10: for a non-empty probe and a sequence at least as long, if every
sliding window scores exactly the probe's length in mismatches, `match_probe`
returns that real score paired with the -1 position sentinel, because the best
position is only updated on strict improvement over the initial minimum. -/
theorem match_probe_all_windows_sentinel (probe sequence : List Char)
    (hne : probe ≠ [])
    (hlen : probe.length ≤ sequence.length)
    (hall : ∀ k, k + probe.length ≤ sequence.length →
      count_mismatches probe ((sequence.drop k).take probe.length) = probe.length) :
    match_probe probe sequence = ((probe.length : Int), -1) := by
  have hp0 : probe.length ≠ 0 := by simpa using hne
  unfold match_probe
  rw [if_neg (by push_neg; exact ⟨hp0, by omega, by omega⟩)]
  rw [match_probe_go_no_improve probe sequence _ 0 (-1)
    (fun k hk1 hk2 => by rw [hall k (by omega)]; omega)]

/-- C10 witness: probe `"A"` against `"NN"` scores one mismatch in both
windows, so the returned pair is the real score 1 with position -1. -/
theorem match_probe_all_windows_sentinel_witness :
    ("A".toList ≠ ([] : List Char)) ∧
    "A".toList.length ≤ "NN".toList.length ∧
    match_probe "A".toList "NN".toList = (("A".toList.length : Int), -1) :=
  ⟨by decide, by decide,
   match_probe_all_windows_sentinel "A".toList "NN".toList (by decide) (by decide)
     (by
       intro k hk
       have h2 : k + 1 ≤ 2 := hk
       rcases k with _ | _ | k
       · decide
       · decide
       · omega)⟩

/-- C5 counterexample: with probe `"ACGT"` supplied and the amplicon `"AC"`
shorter than the probe, the probe fields are not absent — they are present and
carry the `(-1, -1)` sentinel pair. -/
theorem score_product_short_probe_cex :
    (score_product "A".toList "A".toList (some "ACGT".toList) "AC".toList).probe_mismatches
      = some (-1) ∧
    (score_product "A".toList "A".toList (some "ACGT".toList) "AC".toList).probe_position
      = some (-1) := by
  decide

/-- C5 (amended): the two probe fields of an `AmpliconResult` are always both
present or both absent together; they are absent exactly when no probe (or an
empty probe) was supplied; and when a probe is supplied but the amplicon is
shorter than it, both fields are present carrying the -1 sentinel. -/
theorem score_product_probe_fields (fp rp pr p : List Char)
    (probe : Option (List Char))
    (hne : p ≠ []) (hshort : pr.length < p.length) :
    ((score_product fp rp probe pr).probe_mismatches = none ↔
      (score_product fp rp probe pr).probe_position = none) ∧
    ((probe = none ∨ probe = some []) →
      (score_product fp rp probe pr).probe_mismatches = none ∧
      (score_product fp rp probe pr).probe_position = none) ∧
    ((score_product fp rp (some p) pr).probe_mismatches = some (-1) ∧
      (score_product fp rp (some p) pr).probe_position = some (-1)) := by
  refine ⟨?_, ?_, ?_⟩
  · cases probe with
    | none => simp [score_product]
    | some q =>
      by_cases hq : q.isEmpty
      · simp [score_product, hq]
      · simp [score_product, hq]
  · rintro (rfl | rfl) <;> simp [score_product]
  · have hm : match_probe p pr = (-1, -1) := by
      unfold match_probe
      rw [if_pos (Or.inr (Or.inr hshort))]
    have hpe : p.isEmpty = false := by
      simpa [List.isEmpty_iff] using hne
    constructor <;> simp [score_product, hpe, hm]

/-- C5 witness: the amended field contract at a probe of length 4 and an
amplicon of length 2. -/
theorem score_product_probe_fields_witness :
    ("ACGT".toList ≠ ([] : List Char)) ∧
    "AC".toList.length < "ACGT".toList.length ∧
    ((score_product "A".toList "A".toList none "AC".toList).probe_mismatches = none ∧
      (score_product "A".toList "A".toList none "AC".toList).probe_position = none) ∧
    ((score_product "A".toList "A".toList (some "ACGT".toList) "AC".toList).probe_mismatches
        = some (-1) ∧
      (score_product "A".toList "A".toList (some "ACGT".toList) "AC".toList).probe_position
        = some (-1)) := by
  have h := score_product_probe_fields "A".toList "A".toList "AC".toList "ACGT".toList
    none (by decide) (by decide)
  exact ⟨by decide, by decide, h.2.1 (Or.inl rfl), h.2.2⟩

/-- C1 counterexample: an engine adapter stub raising `RuntimeError` on
exactly one of four jobs makes the serial run of `analyze_genome_products`
terminate with that error instead of completing with a report holding all four
genome keys — there is no per-job handler. -/
theorem analyze_serial_runtime_abort_cex :
    analyze_serial stub_engine "ACGT".toList "CCGG".toList none four_jobs
      = .error (.runtimeError "engine crashed".toList) := by
  rfl

/-- C1 (amended): a runtime-class engine failure on any job propagates out of
the serial run: `analyze_genome_products` raises and returns no report, rather
than recording the failing genome as an empty GenomeReport and continuing. -/
theorem analyze_serial_error_propagates
    (engine : AmpJob → Except PyError (List (List Char)))
    (fp rp : List Char) (probe : Option (List Char)) (jobs : List AmpJob)
    (h : ∃ j ∈ jobs, ∃ msg, engine j = .error (.runtimeError msg)) :
    ∃ e, analyze_serial engine fp rp probe jobs = .error e := by
  induction jobs with
  | nil =>
    obtain ⟨j, hj, _⟩ := h
    exact absurd hj (List.not_mem_nil j)
  | cons j rest ih =>
    cases hej : engine j with
    | error e => exact ⟨e, by simp [analyze_serial, process_genome_job, hej]⟩
    | ok products =>
      obtain ⟨j', hj', msg, hmsg⟩ := h
      rcases List.mem_cons.mp hj' with rfl | hmem
      · rw [hej] at hmsg
        exact absurd hmsg (by simp)
      · obtain ⟨e, he⟩ := ih ⟨j', hmem, msg, hmsg⟩
        exact ⟨e, by simp [analyze_serial, process_genome_job, hej, he]⟩

/-- C1 witness: the propagation theorem applied to the one-failure stub over
four jobs. -/
theorem analyze_serial_error_propagates_witness :
    (∃ j ∈ four_jobs, ∃ msg, stub_engine j = .error (.runtimeError msg)) ∧
    (∃ e, analyze_serial stub_engine "ACGT".toList "CCGG".toList none four_jobs
      = .error e) :=
  ⟨⟨⟨"s1", "g2"⟩, by decide, "engine crashed".toList, rfl⟩,
   analyze_serial_error_propagates stub_engine "ACGT".toList "CCGG".toList none four_jobs
     ⟨⟨"s1", "g2"⟩, by decide, "engine crashed".toList, rfl⟩⟩

/-- C4 counterexample: a species directory holding the same accession under
two FASTA-like extensions (`x.fa` and `x.fna`) yields two jobs that target the
same `(species, genome id)` report slot. -/
theorem job_slots_stem_clash_cex :
    job_slots clashing_dirs = [("s", "x".toList), ("s", "x".toList)] ∧
    ¬ (job_slots clashing_dirs).Nodup := by
  constructor
  · rfl
  · decide

/-- C4 (amended): the orchestrator's jobs target pairwise-distinct
`(species, genome id)` slots provided the enumerated genome files within each
species directory have pairwise-distinct stems; two extension variants of one
stem (e.g. `x.fa` and `x.fna`) break the claim, as the counterexample shows. -/
theorem job_slots_nodup_of_distinct_stems (dirs : List SpeciesDir)
    (hnames : (dirs.map SpeciesDir.name).Nodup)
    (hstems : ∀ d ∈ dirs, ((genome_files d).map stem).Nodup) :
    (job_slots dirs).Nodup := by
  unfold job_slots
  rw [List.nodup_flatMap]
  constructor
  · intro d hd
    have hrw : (genome_files d).map (fun f => (d.name, stem f))
        = ((genome_files d).map stem).map (fun s => (d.name, s)) := by
      rw [List.map_map]
      exact rfl
    rw [hrw]
    apply List.Nodup.map _ (hstems d hd)
    intro a b hab
    simpa using congrArg Prod.snd hab
  · have hp : List.Pairwise (fun a b : SpeciesDir => a.name ≠ b.name) dirs :=
      List.pairwise_map.mp hnames
    apply hp.imp
    intro a b hab x hxa hxb
    simp only [List.mem_map] at hxa hxb
    obtain ⟨fa, _, rfl⟩ := hxa
    obtain ⟨fb, _, hfb⟩ := hxb
    exact hab (congrArg Prod.fst hfb).symm

/-- C4 witness: two species with stem-distinct genome files give
pairwise-distinct slots. -/
theorem job_slots_nodup_of_distinct_stems_witness :
    (distinct_dirs.map SpeciesDir.name).Nodup ∧
    (∀ d ∈ distinct_dirs, ((genome_files d).map stem).Nodup) ∧
    (job_slots distinct_dirs).Nodup :=
  ⟨by decide, by decide,
   job_slots_nodup_of_distinct_stems distinct_dirs (by decide) (by decide)⟩
